import Mathlib

/-!
Verification of the generation-slot orchestration and storage mediation layer of
the AI image studio application.

The definitions below are shallow embeddings of the TypeScript source:
* `src/hooks/use-image-generation.ts` — the slot orchestrator hook
  (`startBatchGeneration`, `cancelGeneration`, the mutation onSuccess/onError
  handlers);
* `src/lib/ai-utils.ts` — `validateImageFile`, `generateAIImages` prompt
  construction;
* `src/core/functions/explorer-functions.ts` — `getObjectUrl`;
* `ai-image-functions.ts` — `batchUploadReferenceImages`,
  `ImageGenerationSchema`;
* the studio route with generation records (`handleGenerate`,
  `handleCancelGeneration`, `handleRetryGeneration`, mutation handlers).

Machine timestamps (`Date.now()`) and random suffixes
(`Math.random().toString(36)`) are external inputs and appear as explicit
parameters.  `React.useState` functional updates are modelled by explicit
state passing: each `setX(prev => f(prev))` call becomes the pure function `f`
applied to the current state.
-/

namespace ImageStudio

/-- Status union of an `ImageSlot` (source: `use-image-generation.ts`,
`status: 'pending' | 'generating' | 'completed' | 'error'`). -/
inductive SlotStatus where
  | pending
  | generating
  | completed
  | error
deriving DecidableEq, Repr

/-- `GeneratedImage` record (source: `types/ai-image.ts`). The optional
`dimensions` field is never read by the orchestration layer and is omitted. -/
structure GeneratedImage where
  id : String
  url : String
  filename : String
  format : String
  size : Nat
  createdAt : String
  r2Key : String
deriving DecidableEq, Repr

/-- `ImageSlot` record (source: `use-image-generation.ts`). `startTime` is a
millisecond timestamp; optional fields are `Option`s exactly as the `?:`
fields of the source. -/
structure ImageSlot where
  id : String
  status : SlotStatus
  prompt : String
  imageIndex : Nat
  batchId : String
  startTime : Option Nat := none
  image : Option GeneratedImage := none
  error : Option String := none
deriving DecidableEq, Repr

/-- Slot id construction (source: `id: slot_${batchId}_${index}`). -/
def slotId (batchId : String) (index : Nat) : String :=
  "slot_" ++ batchId ++ "_" ++ Nat.repr index

/-- One freshly created slot of a batch (source: the `Array.from` initializer
in `startBatchGeneration`: status `pending`, no startTime/image/error). -/
def mkPendingSlot (batchId : String) (prompt : String) (index : Nat) : ImageSlot :=
  { id := slotId batchId index
    status := .pending
    prompt := prompt
    imageIndex := index
    batchId := batchId }

/-- The list of slots created up front by one `startBatchGeneration` call. -/
def newBatchSlots (batchId : String) (prompt : String) (imageCount : Nat) : List ImageSlot :=
  (List.range imageCount).map (mkPendingSlot batchId prompt)

/-- First synchronous phase of `startBatchGeneration`:
`setImageSlots(prev => [...prev, ...newSlots])`. -/
def appendPendingSlots (prev : List ImageSlot) (batchId : String) (prompt : String)
    (imageCount : Nat) : List ImageSlot :=
  prev ++ newBatchSlots batchId prompt imageCount

/-- The per-slot `generating` transition (source: the object spread
`{ ...s, status: 'generating', startTime: Date.now() }`). -/
def setGenerating (now : Nat) (s : ImageSlot) : ImageSlot :=
  { s with status := .generating, startTime := some now }

/-- One `setImageSlots` functional update inside the `newSlots.forEach` loop:
map every slot whose id matches to `generating` with a start time. -/
def markGenerating (sid : String) (now : Nat) (slots : List ImageSlot) : List ImageSlot :=
  slots.map (fun s => if s.id = sid then setGenerating now s else s)

/-- `startBatchGeneration` (source lines 91–126): synchronously appends the
pending slots, then, still synchronously (before any network response can
arrive), marks each of them `generating` one `setImageSlots` update at a time,
and returns the fresh `batchId`.  The network dispatches themselves are
fire-and-forget and produce `Completion` messages handled separately. -/
def startBatchGeneration (prev : List ImageSlot) (prompt : String) (imageCount : Nat)
    (batchId : String) (now : Nat) : List ImageSlot × String :=
  let created := newBatchSlots batchId prompt imageCount
  let afterAppend := prev ++ created
  (created.foldl (fun acc s => markGenerating s.id now acc) afterAppend, batchId)

/-- Normalized result of one `generateSingleImage` server call
(source: `{ success, images?, error? }`). -/
structure GenerationResult where
  success : Bool
  images : List GeneratedImage := []
  error : Option String := none
deriving DecidableEq, Repr

/-- How one slot's request ended: the mutation resolved with a normalized
result (`onSuccess`), or it threw (`onError`). -/
inductive Outcome where
  | resolved (result : GenerationResult)
  | thrown (message : String)
deriving DecidableEq, Repr

/-- A completion message carrying the id of the one slot it belongs to. -/
structure Completion where
  slotId : String
  outcome : Outcome
deriving DecidableEq, Repr

/-- Effect of a completion on the single matching slot.
`onSuccess`: if `result.success && result.images?.[0]` the slot becomes
`completed` with the first image attached (note: the spread keeps every other
field, including a previously set `error`); otherwise it becomes `error` with
`result.error || 'Generation failed'`.  `onError`: the slot becomes `error`
with the thrown message. -/
def applyOutcome (o : Outcome) (s : ImageSlot) : ImageSlot :=
  match o with
  | .resolved r =>
    match r.success, r.images with
    | true, img :: _ => { s with status := .completed, image := some img }
    | true, [] => { s with status := .error, error := some (r.error.getD "Generation failed") }
    | false, _ => { s with status := .error, error := some (r.error.getD "Generation failed") }
  | .thrown msg => { s with status := .error, error := some msg }

/-- The `setImageSlots` update performed by `onSuccess`/`onError`: every slot
other than the one the completion belongs to is returned unchanged. -/
def applyCompletion (slots : List ImageSlot) (c : Completion) : List ImageSlot :=
  slots.map (fun s => if s.id = c.slotId then applyOutcome c.outcome s else s)

/-- `cancelGeneration` (source lines 128–136): only a slot that both matches
the id and is currently `generating` is transitioned to `error` with message
"Cancelled by user"; every other slot is returned unchanged. -/
def cancelGeneration (slots : List ImageSlot) (sid : String) : List ImageSlot :=
  slots.map (fun s =>
    if s.id = sid ∧ s.status = .generating then
      { s with status := .error, error := some "Cancelled by user" }
    else s)

/-! ### Helper lemmas about the batch-start fold -/

theorem setGenerating_id (now : Nat) (s : ImageSlot) : (setGenerating now s).id = s.id := rfl

theorem setGenerating_idem (now : Nat) (s : ImageSlot) :
    setGenerating now (setGenerating now s) = setGenerating now s := rfl

/-- Conditional marking used to describe intermediate states of the
`forEach` loop: slots whose id is already in `done` have been marked. -/
def setGeneratingIf (done : List String) (now : Nat) (s : ImageSlot) : ImageSlot :=
  if s.id ∈ done then setGenerating now s else s

theorem markGenerating_setIf (pref todo : List ImageSlot) (done : List String)
    (a : ImageSlot) (now : Nat)
    (hfresh : ∀ p ∈ pref, p.id ≠ a.id) :
    markGenerating a.id now (pref ++ todo.map (setGeneratingIf done now)) =
      pref ++ todo.map (setGeneratingIf (done ++ [a.id]) now) := by
  unfold markGenerating
  rw [List.map_append, List.map_map]
  congr 1
  · have hid : ∀ p ∈ pref, (if p.id = a.id then setGenerating now p else p) = p :=
      fun p hp => if_neg (hfresh p hp)
    exact (List.map_congr_left hid).trans (List.map_id pref)
  · apply List.map_congr_left
    intro s _
    simp only [Function.comp_apply, setGeneratingIf]
    by_cases hd : s.id ∈ done
    · rw [if_pos hd, if_pos (List.mem_append_left _ hd)]
      by_cases he : (setGenerating now s).id = a.id
      · rw [if_pos he, setGenerating_idem]
      · rw [if_neg he]
    · rw [if_neg hd]
      by_cases he : s.id = a.id
      · rw [if_pos he, if_pos (List.mem_append_right _ (by simp [he]))]
      · rw [if_neg he, if_neg (by simp [List.mem_append, hd, he])]

theorem foldl_markGenerating_general (now : Nat) :
    ∀ (rem : List ImageSlot) (done : List String) (pref todo : List ImageSlot),
    (∀ p ∈ pref, ∀ r ∈ rem, p.id ≠ r.id) →
    rem.foldl (fun acc s => markGenerating s.id now acc) (pref ++ todo.map (setGeneratingIf done now)) =
      pref ++ todo.map (setGeneratingIf (done ++ rem.map ImageSlot.id) now) := by
  intro rem
  induction rem with
  | nil => intro done pref todo _; simp
  | cons a rem ih =>
    intro done pref todo hfresh
    have h1 : markGenerating a.id now (pref ++ todo.map (setGeneratingIf done now)) =
        pref ++ todo.map (setGeneratingIf (done ++ [a.id]) now) :=
      markGenerating_setIf pref todo done a now
        (fun p hp => hfresh p hp a (List.mem_cons_self a rem))
    simp only [List.foldl_cons, h1]
    rw [ih (done ++ [a.id]) pref todo
        (fun p hp r hr => hfresh p hp r (List.mem_cons_of_mem a hr))]
    simp [List.append_assoc]

/-- If every element's id is in `done`, the conditional marking marks. -/
theorem map_setGeneratingIf_all (todo : List ImageSlot) (done : List String) (now : Nat)
    (h : ∀ s ∈ todo, s.id ∈ done) :
    todo.map (setGeneratingIf done now) = todo.map (setGenerating now) := by
  apply List.map_congr_left
  intro s hs
  simp [setGeneratingIf, h s hs]

/-- Closed form of `startBatchGeneration`: the previous slots are untouched
and each freshly created slot ends up `generating` with the given start time,
provided none of the fresh slot ids collides with an existing slot id. -/
theorem startBatchGeneration_eq (prev : List ImageSlot) (prompt batchId : String)
    (imageCount now : Nat)
    (hfresh : ∀ s ∈ prev, ∀ i, i < imageCount → s.id ≠ slotId batchId i) :
    (startBatchGeneration prev prompt imageCount batchId now).1 =
      prev ++ (List.range imageCount).map
        (fun i => setGenerating now (mkPendingSlot batchId prompt i)) := by
  unfold startBatchGeneration
  simp only
  have hinit : prev ++ newBatchSlots batchId prompt imageCount =
      prev ++ (newBatchSlots batchId prompt imageCount).map (setGeneratingIf [] now) := by
    congr 1
    apply (List.map_id _).symm.trans
    apply List.map_congr_left
    intro s _
    simp [setGeneratingIf]
  rw [hinit, foldl_markGenerating_general now (newBatchSlots batchId prompt imageCount) []
      prev (newBatchSlots batchId prompt imageCount) ?fresh]
  case fresh =>
    intro p hp r hr
    simp only [newBatchSlots, List.mem_map, List.mem_range] at hr
    obtain ⟨i, hi, rfl⟩ := hr
    exact hfresh p hp i hi
  rw [map_setGeneratingIf_all _ _ _ ?covered]
  case covered =>
    intro s hs
    simp only [List.nil_append, List.mem_map]
    exact ⟨s, hs, rfl⟩
  unfold newBatchSlots
  rw [List.map_map]
  rfl

/-! ### C1, C10, C5 -/

/-- C1: for every `imageCount` between 1 and 5, `startBatchGeneration`
synchronously appends exactly `imageCount` new slots sharing the freshly
generated `batchId`, with `imageIndex` 0..imageCount-1, each created `pending`
(the `appendPendingSlots` phase) and then transitioned to `generating` with a
start time — all before any completion can be processed, the whole function
being synchronous — and returns the `batchId`. Freshness of the generated
`batchId` (timestamp + random suffix) is the `hfresh` hypothesis. -/
theorem startBatchGeneration_batch (prev : List ImageSlot) (prompt batchId : String)
    (imageCount now : Nat)
    (h1 : 1 ≤ imageCount) (h5 : imageCount ≤ 5)
    (hfresh : ∀ s ∈ prev, ∀ i, i < imageCount → s.id ≠ slotId batchId i) :
    (startBatchGeneration prev prompt imageCount batchId now).2 = batchId
    ∧ (startBatchGeneration prev prompt imageCount batchId now).1.length
        = prev.length + imageCount
    ∧ ∀ i, i < imageCount →
        (appendPendingSlots prev batchId prompt imageCount)[prev.length + i]? =
          some (mkPendingSlot batchId prompt i)
        ∧ (mkPendingSlot batchId prompt i).status = .pending
        ∧ (startBatchGeneration prev prompt imageCount batchId now).1[prev.length + i]? =
            some { id := slotId batchId i, status := .generating, prompt := prompt,
                   imageIndex := i, batchId := batchId, startTime := some now,
                   image := none, error := none } := by
  have heq := startBatchGeneration_eq prev prompt batchId imageCount now hfresh
  refine ⟨rfl, ?_, ?_⟩
  · rw [heq]; simp
  · intro i hi
    refine ⟨?_, rfl, ?_⟩
    · unfold appendPendingSlots newBatchSlots
      rw [List.getElem?_append_right (Nat.le_add_right _ _)]
      simp [hi]
    · rw [heq, List.getElem?_append_right (Nat.le_add_right _ _)]
      simp only [Nat.add_sub_cancel_left, List.getElem?_map]
      rw [List.getElem?_range hi]
      rfl

theorem startBatchGeneration_batch_witness :
    (startBatchGeneration [] "p" 2 "b" 7).2 = "b"
    ∧ (startBatchGeneration [] "p" 2 "b" 7).1.length = 0 + 2
    ∧ (startBatchGeneration [] "p" 2 "b" 7).1[0 + 1]? =
        some { id := slotId "b" 1, status := .generating, prompt := "p",
               imageIndex := 1, batchId := "b", startTime := some 7,
               image := none, error := none } := by
  have h := startBatchGeneration_batch [] "p" "b" 2 7 (by decide) (by decide)
    (by intro s hs; cases hs)
  exact ⟨h.1, h.2.1, (h.2.2 1 (by decide)).2.2⟩

/-- C10: `startBatchGeneration` only appends — every slot present before the
call is still at its position, unchanged in every field, and the new slots are
added at the end (again under freshness of the generated batch id). -/
theorem startBatchGeneration_frame (prev : List ImageSlot) (prompt batchId : String)
    (imageCount now : Nat)
    (hfresh : ∀ s ∈ prev, ∀ i, i < imageCount → s.id ≠ slotId batchId i) :
    (∀ i, i < prev.length →
       (startBatchGeneration prev prompt imageCount batchId now).1[i]? = prev[i]?)
    ∧ (startBatchGeneration prev prompt imageCount batchId now).1 =
        prev ++ (List.range imageCount).map
          (fun i => setGenerating now (mkPendingSlot batchId prompt i)) := by
  have heq := startBatchGeneration_eq prev prompt batchId imageCount now hfresh
  refine ⟨?_, heq⟩
  intro i hi
  rw [heq, List.getElem?_append, if_pos hi]

theorem startBatchGeneration_frame_witness :
    (startBatchGeneration [mkPendingSlot "old" "q" 0] "p" 1 "b" 7).1[0]? =
      [mkPendingSlot "old" "q" 0][0]? := by
  have h := startBatchGeneration_frame [mkPendingSlot "old" "q" 0] "p" "b" 1 7
    (by intro s hs i hi; simp at hs; subst hs; simp at hi; subst hi; decide)
  exact h.1 0 (by decide)

/-- C5: `cancelGeneration` transitions a matching `generating` slot to
`error` with message "Cancelled by user", and leaves a slot that is already
`completed` or `error` entirely unchanged. -/
theorem cancelGeneration_spec (slots : List ImageSlot) (sid : String) (i : Nat)
    (slot : ImageSlot) (hi : slots[i]? = some slot) :
    (slot.id = sid → slot.status = .generating →
       (cancelGeneration slots sid)[i]? =
         some { slot with status := .error, error := some "Cancelled by user" })
    ∧ (slot.status = .completed ∨ slot.status = .error →
       (cancelGeneration slots sid)[i]? = some slot) := by
  unfold cancelGeneration
  rw [List.getElem?_map, hi]
  constructor
  · intro hid hst
    simp [hid, hst]
  · intro hterm
    have hne : ¬ (slot.id = sid ∧ slot.status = SlotStatus.generating) := by
      rintro ⟨-, hgen⟩
      rcases hterm with h | h <;> rw [hgen] at h <;> cases h
    simp [if_neg hne]

theorem cancelGeneration_spec_witness :
    (cancelGeneration [setGenerating 3 (mkPendingSlot "b" "p" 0)] (slotId "b" 0))[0]? =
      some { setGenerating 3 (mkPendingSlot "b" "p" 0) with
             status := .error, error := some "Cancelled by user" } :=
  (cancelGeneration_spec [setGenerating 3 (mkPendingSlot "b" "p" 0)] (slotId "b" 0) 0
    (setGenerating 3 (mkPendingSlot "b" "p" 0)) rfl).1 rfl rfl

/-! ### C4: completion delivery is commutative -/

theorem applyOutcome_id (o : Outcome) (s : ImageSlot) : (applyOutcome o s).id = s.id := by
  cases o with
  | resolved r =>
    rcases r with ⟨su, im, er⟩
    cases su <;> cases im <;> rfl
  | thrown m => rfl

theorem applyCompletion_comm (c₁ c₂ : Completion)
    (h : c₁.slotId ≠ c₂.slotId ∨ c₁ = c₂) (slots : List ImageSlot) :
    applyCompletion (applyCompletion slots c₁) c₂ =
      applyCompletion (applyCompletion slots c₂) c₁ := by
  rcases h with hne | rfl
  · unfold applyCompletion
    rw [List.map_map, List.map_map]
    apply List.map_congr_left
    intro s _
    simp only [Function.comp_apply]
    by_cases h1 : s.id = c₁.slotId
    · have h2 : s.id ≠ c₂.slotId := fun hc => hne (h1 ▸ hc ▸ rfl)
      simp [h1, h2, applyOutcome_id, hne, Ne.symm hne]
    · by_cases h2 : s.id = c₂.slotId
      · simp [h1, h2, applyOutcome_id, hne, Ne.symm hne]
      · simp [h1, h2, applyOutcome_id]
  · rfl

theorem foldl_applyCompletion_perm :
    ∀ (cs₁ cs₂ : List Completion), cs₁.Perm cs₂ →
    (∀ x ∈ cs₁, ∀ y ∈ cs₁, x.slotId ≠ y.slotId ∨ x = y) →
    ∀ slots : List ImageSlot,
      cs₁.foldl applyCompletion slots = cs₂.foldl applyCompletion slots := by
  intro cs₁ cs₂ hperm
  induction hperm with
  | nil => intro _ _; rfl
  | cons a h ih =>
    intro hc slots
    simp only [List.foldl_cons]
    exact ih (fun x hx y hy =>
      hc x (List.mem_cons_of_mem a hx) y (List.mem_cons_of_mem a hy)) _
  | swap a b l =>
    intro hc slots
    simp only [List.foldl_cons]
    rw [applyCompletion_comm b a
      (hc b (List.mem_cons_self _ _) a (List.mem_cons_of_mem _ (List.mem_cons_self _ _)))]
  | trans h₁ h₂ ih₁ ih₂ =>
    intro hc slots
    rw [ih₁ hc slots]
    exact ih₂ (fun x hx y hy => hc x (h₁.mem_iff.mpr hx) y (h₁.mem_iff.mpr hy)) slots

/-- C4: delivering the per-slot completion results in any permutation of
arrival order yields the same final slot list, and each completion leaves
every slot whose id it does not carry unchanged at its position. -/
theorem completion_order_commutative (slots : List ImageSlot)
    (cs₁ cs₂ : List Completion) (hperm : cs₁.Perm cs₂)
    (hnodup : (cs₁.map Completion.slotId).Nodup) :
    cs₁.foldl applyCompletion slots = cs₂.foldl applyCompletion slots
    ∧ ∀ (c : Completion) (l : List ImageSlot) (i : Nat) (s : ImageSlot),
        l[i]? = some s → s.id ≠ c.slotId →
        (applyCompletion l c)[i]? = some s := by
  constructor
  · apply foldl_applyCompletion_perm cs₁ cs₂ hperm
    intro x hx y hy
    by_cases h : x.slotId = y.slotId
    · exact Or.inr (List.inj_on_of_nodup_map hnodup hx hy h)
    · exact Or.inl h
  · intro c l i s hi hne
    unfold applyCompletion
    rw [List.getElem?_map, hi]
    simp [if_neg hne]

theorem completion_order_commutative_witness :
    ([⟨slotId "b" 0, .thrown "boom"⟩,
      ⟨slotId "b" 1, .resolved ⟨true, [⟨"i", "u", "f", "image/png", 3, "t", "k"⟩], none⟩⟩] :
        List Completion).foldl applyCompletion
      (startBatchGeneration [] "p" 2 "b" 7).1 =
    ([⟨slotId "b" 1, .resolved ⟨true, [⟨"i", "u", "f", "image/png", 3, "t", "k"⟩], none⟩⟩,
      ⟨slotId "b" 0, .thrown "boom"⟩] :
        List Completion).foldl applyCompletion
      (startBatchGeneration [] "p" 2 "b" 7).1
    ∧ (applyCompletion [mkPendingSlot "b" "p" 0] ⟨slotId "b" 1, .thrown "x"⟩)[0]? =
        some (mkPendingSlot "b" "p" 0) := by
  have h := completion_order_commutative (startBatchGeneration [] "p" 2 "b" 7).1
    [⟨slotId "b" 0, .thrown "boom"⟩,
     ⟨slotId "b" 1, .resolved ⟨true, [⟨"i", "u", "f", "image/png", 3, "t", "k"⟩], none⟩⟩]
    [⟨slotId "b" 1, .resolved ⟨true, [⟨"i", "u", "f", "image/png", 3, "t", "k"⟩], none⟩⟩,
     ⟨slotId "b" 0, .thrown "boom"⟩]
    (List.Perm.swap _ _ _) (by decide)
  exact ⟨h.1, h.2 ⟨slotId "b" 1, .thrown "x"⟩ [mkPendingSlot "b" "p" 0] 0
    (mkPendingSlot "b" "p" 0) rfl (by decide)⟩

/-! ### C3: execution traces of the orchestrator

An execution of the hook is a sequence of events interleaved on the single
JS thread: a synchronous `startBatchGeneration` call, the arrival of one
request's completion (`onSuccess`/`onError`), or a `cancelGeneration` call.
`wf` captures the real system's guarantees: batch ids are fresh (timestamp +
random suffix), and each dispatched request produces exactly one completion
(tracked by the `await` list of slot ids whose request is still in flight). -/

inductive Event where
  | start (prompt : String) (imageCount : Nat) (batchId : String) (now : Nat)
  | complete (c : Completion)
  | cancel (sid : String)
deriving DecidableEq, Repr

def step (slots : List ImageSlot) : Event → List ImageSlot
  | .start prompt n b now => (startBatchGeneration slots prompt n b now).1
  | .complete c => applyCompletion slots c
  | .cancel sid => cancelGeneration slots sid

/-- State of the hook after a sequence of events, starting from the initial
`useState<ImageSlot[]>([])`. -/
def run (events : List Event) : List ImageSlot := events.foldl step []

/-- The slot ids created by one batch. -/
def batchIds (b : String) (n : Nat) : List String := (List.range n).map (slotId b)

def distinctStrings : List String → Bool
  | [] => true
  | x :: xs => decide (x ∉ xs) && distinctStrings xs

/-- Well-formed traces: every `start` uses a fresh batch id (no slot id
collision with live slots) and every in-flight request completes at most
once. -/
def wf : List String → List ImageSlot → List Event → Bool
  | _, _, [] => true
  | await, slots, .start p n b now :: es =>
      (batchIds b n).all (fun i => slots.all (fun s => decide (s.id ≠ i)))
        && distinctStrings (batchIds b n)
        && wf (await ++ batchIds b n) (step slots (.start p n b now)) es
  | await, slots, .complete c :: es =>
      decide (c.slotId ∈ await) && wf (await.erase c.slotId) (step slots (.complete c)) es
  | await, slots, .cancel sid :: es =>
      wf await (step slots (.cancel sid)) es

/-- The invariant the code actually maintains on every slot: a `completed`
slot has an image and its error is either absent or the stale
"Cancelled by user" left by a cancellation that raced the completion; an
`error` slot has an error and no image; neither field is present while
`pending`/`generating`. -/
def slotStateOk (s : ImageSlot) : Bool :=
  match s.status with
  | .pending => s.image.isNone && s.error.isNone
  | .generating => s.image.isNone && s.error.isNone
  | .completed => s.image.isSome && (s.error.isNone || decide (s.error = some "Cancelled by user"))
  | .error => s.error.isSome && s.image.isNone

/-- The invariant as the specification claims it: exactly one of
image/error present in a terminal state, neither otherwise. -/
def claimedSlotOk (s : ImageSlot) : Bool :=
  match s.status with
  | .pending => s.image.isNone && s.error.isNone
  | .generating => s.image.isNone && s.error.isNone
  | .completed => (s.image.isSome && s.error.isNone) || (s.error.isSome && s.image.isNone)
  | .error => (s.image.isSome && s.error.isNone) || (s.error.isSome && s.image.isNone)

/-- Property of a slot whose request is still in flight: it is `generating`,
or it was cancelled while generating. -/
def awaitOk (s : ImageSlot) : Bool :=
  decide (s.status = .generating) ||
    (decide (s.status = .error) && decide (s.error = some "Cancelled by user") && s.image.isNone)

structure InvState (await : List String) (slots : List ImageSlot) : Prop where
  ok : ∀ s ∈ slots, slotStateOk s = true
  awaiting : ∀ s ∈ slots, s.id ∈ await → awaitOk s = true
  covered : ∀ a ∈ await, ∃ s ∈ slots, s.id = a
  nodup : await.Nodup

theorem distinctStrings_nodup : ∀ l : List String, distinctStrings l = true → l.Nodup := by
  intro l
  induction l with
  | nil => intro _; exact List.nodup_nil
  | cons x xs ih =>
    intro h
    simp only [distinctStrings, Bool.and_eq_true, decide_eq_true_eq] at h
    exact List.Nodup.cons h.1 (ih h.2)

theorem invState_start (await : List String) (slots : List ImageSlot)
    (p b : String) (n now : Nat)
    (hfresh : ∀ i ∈ batchIds b n, ∀ s ∈ slots, s.id ≠ i)
    (hdis : (batchIds b n).Nodup)
    (hinv : InvState await slots) :
    InvState (await ++ batchIds b n) ((startBatchGeneration slots p n b now).1) := by
  have hfr : ∀ s ∈ slots, ∀ i, i < n → s.id ≠ slotId b i := by
    intro s hs i hi
    exact hfresh (slotId b i) (by simp [batchIds]; exact ⟨i, hi, rfl⟩) s hs
  rw [startBatchGeneration_eq slots p b n now hfr]
  constructor
  · intro s hs
    rcases List.mem_append.mp hs with h | h
    · exact hinv.ok s h
    · obtain ⟨i, _, rfl⟩ := List.mem_map.mp h
      rfl
  · intro s hs hid
    rcases List.mem_append.mp hs with h | h
    · rcases List.mem_append.mp hid with ha | hb
      · exact hinv.awaiting s h ha
      · exact absurd rfl (hfresh s.id hb s h)
    · obtain ⟨i, _, rfl⟩ := List.mem_map.mp h
      rfl
  · intro a ha
    rcases List.mem_append.mp ha with h | h
    · obtain ⟨s, hs, hsa⟩ := hinv.covered a h
      exact ⟨s, List.mem_append_left _ hs, hsa⟩
    · obtain ⟨i, hi, rfl⟩ := List.mem_map.mp h
      have him : i ∈ List.range n := hi
      exact ⟨setGenerating now (mkPendingSlot b p i),
        List.mem_append_right _ (List.mem_map_of_mem _ him), rfl⟩
  · rw [List.nodup_append]
    refine ⟨hinv.nodup, hdis, ?_⟩
    intro a ha hb
    obtain ⟨s, hs, hsa⟩ := hinv.covered a ha
    exact hfresh a hb s hs hsa

theorem invState_complete (await : List String) (slots : List ImageSlot) (c : Completion)
    (hc : c.slotId ∈ await) (hinv : InvState await slots) :
    InvState (await.erase c.slotId) (applyCompletion slots c) := by
  have hid : ∀ s : ImageSlot,
      (if s.id = c.slotId then applyOutcome c.outcome s else s).id = s.id := by
    intro s
    by_cases h : s.id = c.slotId
    · rw [if_pos h, applyOutcome_id]
    · rw [if_neg h]
  constructor
  · intro s' hs'
    obtain ⟨s, hs, rfl⟩ := List.mem_map.mp hs'
    by_cases h : s.id = c.slotId
    · rw [if_pos h]
      have haw := hinv.awaiting s hs (h ▸ hc)
      have hok := hinv.ok s hs
      simp only [awaitOk, Bool.or_eq_true, Bool.and_eq_true, decide_eq_true_eq] at haw
      rcases haw with hgen | ⟨⟨herr, hmsg⟩, himg⟩
      · simp only [slotStateOk, hgen, Bool.and_eq_true] at hok
        have himg : s.image = none := Option.isNone_iff_eq_none.mp hok.1
        have herr : s.error = none := Option.isNone_iff_eq_none.mp hok.2
        rcases c.outcome with r | m
        · rcases r with ⟨su, im, er⟩
          cases su <;> cases im <;> simp [applyOutcome, slotStateOk, himg, herr]
        · simp [applyOutcome, slotStateOk, himg]
      · have himg' : s.image = none := Option.isNone_iff_eq_none.mp himg
        rcases c.outcome with r | m
        · rcases r with ⟨su, im, er⟩
          cases su <;> cases im <;> simp [applyOutcome, slotStateOk, himg', hmsg]
        · simp [applyOutcome, slotStateOk, himg']
    · rw [if_neg h]
      exact hinv.ok s hs
  · intro s' hs' hmem
    obtain ⟨s, hs, rfl⟩ := List.mem_map.mp hs'
    rw [hid] at hmem
    have hne : s.id ≠ c.slotId := ((List.Nodup.mem_erase_iff hinv.nodup).mp hmem).1
    rw [if_neg hne]
    exact hinv.awaiting s hs (List.mem_of_mem_erase hmem)
  · intro a ha
    obtain ⟨s, hs, hsa⟩ := hinv.covered a (List.mem_of_mem_erase ha)
    exact ⟨_, List.mem_map_of_mem _ hs, by rw [hid]; exact hsa⟩
  · exact hinv.nodup.erase _

theorem invState_cancel (await : List String) (slots : List ImageSlot) (sid : String)
    (hinv : InvState await slots) :
    InvState await (cancelGeneration slots sid) := by
  have hid : ∀ s : ImageSlot,
      (if s.id = sid ∧ s.status = SlotStatus.generating then
        { s with status := .error, error := some "Cancelled by user" } else s).id = s.id := by
    intro s
    by_cases h : s.id = sid ∧ s.status = SlotStatus.generating
    · rw [if_pos h]
    · rw [if_neg h]
  constructor
  · intro s' hs'
    obtain ⟨s, hs, rfl⟩ := List.mem_map.mp hs'
    by_cases h : s.id = sid ∧ s.status = SlotStatus.generating
    · rw [if_pos h]
      have hok := hinv.ok s hs
      simp only [slotStateOk, h.2, Bool.and_eq_true] at hok
      simp [slotStateOk, Option.isNone_iff_eq_none.mp hok.1]
    · rw [if_neg h]
      exact hinv.ok s hs
  · intro s' hs' hmem
    obtain ⟨s, hs, rfl⟩ := List.mem_map.mp hs'
    rw [hid] at hmem
    by_cases h : s.id = sid ∧ s.status = SlotStatus.generating
    · rw [if_pos h]
      have hok := hinv.ok s hs
      simp only [slotStateOk, h.2, Bool.and_eq_true] at hok
      simp [awaitOk, Option.isNone_iff_eq_none.mp hok.1]
    · rw [if_neg h]
      exact hinv.awaiting s hs hmem
  · intro a ha
    obtain ⟨s, hs, hsa⟩ := hinv.covered a ha
    exact ⟨_, List.mem_map_of_mem _ hs, by rw [hid]; exact hsa⟩
  · exact hinv.nodup

theorem wf_invariant : ∀ (evs : List Event) (await : List String) (slots : List ImageSlot),
    wf await slots evs = true → InvState await slots →
    ∀ s ∈ evs.foldl step slots, slotStateOk s = true := by
  intro evs
  induction evs with
  | nil =>
    intro await slots _ hinv
    simpa using hinv.ok
  | cons e es ih =>
    intro await slots hwf hinv
    rw [List.foldl_cons]
    match e with
    | .start p n b now =>
      simp only [wf, Bool.and_eq_true] at hwf
      obtain ⟨⟨hfresh, hdis⟩, hrest⟩ := hwf
      apply ih _ _ hrest
      apply invState_start await slots p b n now ?_ (distinctStrings_nodup _ hdis) hinv
      intro i hi s hs
      simp only [List.all_eq_true, decide_eq_true_eq] at hfresh
      exact hfresh i hi s hs
    | .complete c =>
      simp only [wf, Bool.and_eq_true, decide_eq_true_eq] at hwf
      exact ih _ _ hwf.2 (invState_complete await slots c hwf.1 hinv)
    | .cancel sid =>
      simp only [wf] at hwf
      exact ih _ _ hwf (invState_cancel await slots sid hinv)

/-- The cancel/completion race: a one-slot batch is started, the user cancels
the slot, then the slot's own successful completion arrives. -/
def cancelRace : List Event :=
  [ .start "p" 1 "b" 0,
    .cancel (slotId "b" 0),
    .complete ⟨slotId "b" 0, .resolved ⟨true, [⟨"i", "u", "f", "image/png", 3, "t", "k"⟩], none⟩⟩ ]

/-- C3 counterexample: on the well-formed trace `cancelRace` the claimed
mutual-exclusion invariant fails — the slot ends `completed` with its image
present while the stale "Cancelled by user" error is also still present. -/
theorem claimed_invariant_counterexample :
    wf [] [] cancelRace = true
    ∧ ¬ (∀ s ∈ run cancelRace, claimedSlotOk s = true)
    ∧ (∀ s ∈ run cancelRace,
        s.status = .completed ∧ s.image.isSome = true ∧ s.error = some "Cancelled by user") := by
  refine ⟨by decide, by decide, by decide⟩

/-- C3 (amended): on every well-formed execution trace, every slot satisfies
`slotStateOk`: image and error are mutually exclusive in terminal states and
absent otherwise, except that a slot completed after being cancelled is
`completed` with its image present and the stale "Cancelled by user" error
still attached. -/
theorem slot_image_error_invariant (evs : List Event) (h : wf [] [] evs = true) :
    ∀ s ∈ run evs, slotStateOk s = true :=
  wf_invariant evs [] [] h (by refine ⟨?_, ?_, ?_, ?_⟩ <;> simp)

theorem slot_image_error_invariant_witness :
    wf [] [] cancelRace = true ∧ ∀ s ∈ run cancelRace, slotStateOk s = true :=
  ⟨by decide, slot_image_error_invariant cancelRace (by decide)⟩

/-! ### C6: request construction in `generateAIImages` (`ai-utils.ts`) -/

/-- A reference image as handed to `generateAIImages`: a `File` with its
name, MIME type, byte size and contents (`await file.arrayBuffer()`). -/
structure RefFile where
  name : String
  fileType : String
  size : Nat
  bytes : List Nat
deriving DecidableEq, Repr

/-- One element of a multimodal message's `content` array. -/
inductive ContentPart where
  | text (text : String)
  | image (image : List Nat) (mediaType : String)
deriving DecidableEq, Repr

/-- A chat message (`role: 'user'` in the source). -/
structure UserMessage where
  role : String
  content : List ContentPart
deriving DecidableEq, Repr

/-- The `promptStructure` value passed to `generateText`: either the plain
prompt string or a messages array. -/
inductive PromptStructure where
  | plain (prompt : String)
  | messages (msgs : List UserMessage)
deriving DecidableEq, Repr

/-- Request construction (source: `generateAIImages`, lines 100–134): with
reference images present, `content` starts as `[{type:'text', text:prompt}]`
and the loop pushes one image part per reference (bytes plus the file's own
`type` as `mediaType`); the result is a single user message.  With no
references the prompt is passed as plain text. -/
def buildPromptStructure (prompt : String) (referenceImages : List RefFile) :
    PromptStructure :=
  if referenceImages.length > 0 then
    let content := referenceImages.foldl
      (fun acc file => acc ++ [ContentPart.image file.bytes file.fileType])
      [ContentPart.text prompt]
    .messages [⟨"user", content⟩]
  else
    .plain prompt

theorem foldl_push_eq_append {α β : Type} (g : α → β) :
    ∀ (l : List α) (init : List β),
      l.foldl (fun acc x => acc ++ [g x]) init = init ++ l.map g := by
  intro l
  induction l with
  | nil => intro init; simp
  | cons a l ih => intro init; simp [ih]

/-- C6: with zero references the request is the plain text prompt; with at
least one reference it is exactly one user message whose content is the text
part followed by one image part per reference, in the order supplied, each
carrying that reference's original media type. -/
theorem buildPromptStructure_spec (prompt : String) (refs : List RefFile) :
    buildPromptStructure prompt refs =
      if refs.length = 0 then .plain prompt
      else .messages [⟨"user",
        ContentPart.text prompt ::
          refs.map (fun f => ContentPart.image f.bytes f.fileType)⟩] := by
  unfold buildPromptStructure
  by_cases h : refs.length = 0
  · rw [if_neg (by omega), if_pos h]
  · rw [if_pos (by omega), if_neg h, foldl_push_eq_append]
    rfl

/-! ### C2: imageCount validation -/

/-- Count rule of the server-side `ImageGenerationSchema`
(`count: z.number().min(1).max(5)`). -/
def imageGenerationCountValid (count : Nat) : Bool :=
  decide (1 ≤ count) && decide (count ≤ 5)

theorem startBatchGeneration_length (prev : List ImageSlot) (prompt batchId : String)
    (imageCount now : Nat) :
    (startBatchGeneration prev prompt imageCount batchId now).1.length
      = prev.length + imageCount := by
  unfold startBatchGeneration
  simp only
  have hfold : ∀ (l init : List ImageSlot),
      (l.foldl (fun acc s => markGenerating s.id now acc) init).length = init.length := by
    intro l
    induction l with
    | nil => intro init; rfl
    | cons a l ih => intro init; rw [List.foldl_cons, ih]; simp [markGenerating]
  rw [hfold]
  simp [newBatchSlots]

/-- C2 counterexample: at `imageCount = 6` the `startBatchGeneration` call is
not rejected — it creates six slots and returns the batch id normally (its
return type has no error channel at all), even though the server-side schema
would reject a count of 6. -/
theorem startBatch_no_validation_counterexample :
    (startBatchGeneration [] "p" 6 "b" 0).1.length = 6
    ∧ (startBatchGeneration [] "p" 6 "b" 0).2 = "b"
    ∧ imageGenerationCountValid 6 = false :=
  ⟨by decide, rfl, by decide⟩

/-- C2 (amended): the client-side `startBatchGeneration` performs no
`imageCount` validation — for any count (0 or above 5 included) it creates
exactly `imageCount` slots and returns the batch id; the bound 1..5 is
enforced only by the server-side `ImageGenerationSchema` count rule, which
rejects every count outside that range. -/
theorem imageCount_validation (prev : List ImageSlot) (prompt batchId : String)
    (imageCount now : Nat) (hout : imageCount = 0 ∨ 5 < imageCount) :
    imageGenerationCountValid imageCount = false
    ∧ (startBatchGeneration prev prompt imageCount batchId now).1.length
        = prev.length + imageCount := by
  refine ⟨?_, startBatchGeneration_length prev prompt batchId imageCount now⟩
  simp only [imageGenerationCountValid, Bool.and_eq_true, decide_eq_true_eq,
    Bool.and_eq_false_iff, decide_eq_false_iff_not]
  omega

theorem imageCount_validation_witness :
    imageGenerationCountValid 6 = false
    ∧ (startBatchGeneration [mkPendingSlot "old" "q" 0] "p" 6 "b" 0).1.length = 1 + 6 :=
  imageCount_validation [mkPendingSlot "old" "q" 0] "p" "b" 6 0 (Or.inr (by decide))

/-! ### C9: retry of a generation record (studio route) -/

/-- `StoredImage` record (source: `types/ai-image.ts`); the source field
`type` is a reserved word in Lean and is embedded as `imageKind`. -/
structure StoredImage where
  id : String
  url : String
  filename : String
  originalName : String
  format : String
  size : Nat
  r2Key : String
  imageKind : String
deriving DecidableEq, Repr

/-- `ImageGeneration` record (source: `types/ai-image.ts`): one generation
action of the studio route, with optional result fields. -/
structure ImageGeneration where
  id : String
  prompt : String
  imageCount : Nat
  startTime : Nat
  status : SlotStatus
  images : Option (List GeneratedImage) := none
  error : Option String := none
  referenceImages : Option (List StoredImage) := none
deriving DecidableEq, Repr

/-- `handleGenerate`: prepends a fresh `generating` generation record. -/
def handleGenerate (gens : List ImageGeneration) (gid prompt : String)
    (imageCount now : Nat) : List ImageGeneration :=
  { id := gid, prompt := prompt, imageCount := imageCount, startTime := now,
    status := .generating } :: gens

/-- The mutation `onSuccess` handler for a successful response: marks the
matching generation `completed` and attaches the images. -/
def genOnSuccess (gens : List ImageGeneration) (gid : String)
    (imgs : List GeneratedImage) (refs : Option (List StoredImage)) :
    List ImageGeneration :=
  gens.map (fun g => if g.id = gid then
    { g with status := .completed, images := some imgs, referenceImages := refs } else g)

/-- The mutation `onError` handler: marks the matching generation `error`. -/
def genOnError (gens : List ImageGeneration) (gid msg : String) :
    List ImageGeneration :=
  gens.map (fun g => if g.id = gid then
    { g with status := .error, error := some msg } else g)

/-- `handleCancelGeneration` of the studio route: marks the matching
generation as cancelled (note: with no status check). -/
def handleCancelGeneration (gens : List ImageGeneration) (gid : String) :
    List ImageGeneration :=
  gens.map (fun g => if g.id = gid then
    { g with status := .error, error := some "Cancelled by user" } else g)

/-- `handleRetryGeneration` (source lines 135–154): if the generation exists,
reset it to `generating` with a fresh start time and `error: undefined`; the
`images` field is not touched. -/
def handleRetryGeneration (gens : List ImageGeneration) (gid : String) (now : Nat) :
    List ImageGeneration :=
  match gens.find? (fun g => g.id == gid) with
  | none => gens
  | some _ => gens.map (fun g => if g.id = gid then
      { g with status := .generating, startTime := now, error := none } else g)

def retryRaceImage : GeneratedImage := ⟨"i", "u", "f", "image/png", 3, "t", "k"⟩

/-- C9 counterexample: a generation completed with an image and then
cancelled sits in a terminal `error` state while still holding its images;
retrying it resets status/startTime and clears the error but does **not**
clear the image, contradicting the claim's "(and any image)". -/
theorem retry_keeps_image_counterexample :
    (∀ g ∈ handleCancelGeneration
        (genOnSuccess (handleGenerate [] "gen_1" "p" 1 10) "gen_1" [retryRaceImage] none)
        "gen_1",
      g.status = .error ∧ g.images = some [retryRaceImage])
    ∧ (∀ g ∈ handleRetryGeneration
        (handleCancelGeneration
          (genOnSuccess (handleGenerate [] "gen_1" "p" 1 10) "gen_1" [retryRaceImage] none)
          "gen_1") "gen_1" 20,
      g.status = .generating ∧ g.images = some [retryRaceImage] ∧ g.error = none) := by
  decide

/-- C9 (amended): retrying a generation in the terminal `error` state resets
it to `generating` with the retry-call time as its new `startTime` (strictly
greater than the previous one whenever the clock has advanced), clears the
prior `error`, leaves the `images` field and every other field unchanged, and
leaves all other generations unchanged. -/
theorem handleRetryGeneration_spec (gens : List ImageGeneration) (gid : String)
    (now i : Nat) (g : ImageGeneration)
    (hg : gens[i]? = some g) (hmem : ∃ x ∈ gens, x.id = gid) :
    (g.id = gid → g.status = .error → g.startTime < now →
       (handleRetryGeneration gens gid now)[i]? =
         some { g with status := .generating, startTime := now, error := none }
       ∧ g.startTime <
           ({ g with status := .generating, startTime := now, error := none } :
             ImageGeneration).startTime)
    ∧ (g.id ≠ gid → (handleRetryGeneration gens gid now)[i]? = some g) := by
  have hfind : (gens.find? (fun g => g.id == gid)).isSome := by
    rw [List.find?_isSome]
    obtain ⟨x, hx, hxid⟩ := hmem
    exact ⟨x, hx, by simp [hxid]⟩
  unfold handleRetryGeneration
  obtain ⟨w, hw⟩ := Option.isSome_iff_exists.mp hfind
  rw [hw]
  constructor
  · intro hid _ hlt
    rw [List.getElem?_map, hg]
    simp [hid, hlt]
  · intro hid
    rw [List.getElem?_map, hg]
    simp [hid]

theorem handleRetryGeneration_spec_witness :
    (handleRetryGeneration
        [({ id := "g1", prompt := "p", imageCount := 1, startTime := 10,
            status := .error, images := some [retryRaceImage],
            error := some "boom", referenceImages := none } : ImageGeneration)]
        "g1" 20)[0]? =
      some ({ id := "g1", prompt := "p", imageCount := 1, startTime := 20,
              status := .generating, images := some [retryRaceImage],
              error := none, referenceImages := none } : ImageGeneration) := by
  have h := handleRetryGeneration_spec
    [{ id := "g1", prompt := "p", imageCount := 1, startTime := 10,
       status := .error, images := some [retryRaceImage],
       error := some "boom", referenceImages := none }] "g1" 20 0
    { id := "g1", prompt := "p", imageCount := 1, startTime := 10,
      status := .error, images := some [retryRaceImage],
      error := some "boom", referenceImages := none }
    rfl ⟨_, List.mem_singleton_self _, rfl⟩
  exact (h.1 rfl rfl (by decide)).1

/-! ### C8: `getObjectUrl` (`explorer-functions.ts`) -/

/-- The extensions matched by the source regex
`\.(jpg|jpeg|png|gif|webp)$` with the case-insensitive flag. -/
def imageExtensions : List String := [".jpg", ".jpeg", ".png", ".gif", ".webp"]

def isImageKey (key : String) : Bool :=
  imageExtensions.any (fun ext => ext.data.isSuffixOf (key.data.map Char.toLower))

def base64Chars : List Char :=
  "ABCDEFGHIJKLMNOPQRSTUVWXYZabcdefghijklmnopqrstuvwxyz0123456789+/".data

def base64Digit (n : Nat) : Char := base64Chars.getD n 'A'

/-- Standard base64 of a byte list (models `Buffer.toString('base64')`). -/
def base64Chunks : List Nat → List Char
  | [] => []
  | [a] => [base64Digit (a / 4), base64Digit (a % 4 * 16), '=', '=']
  | [a, b] => [base64Digit (a / 4), base64Digit (a % 4 * 16 + b / 16),
               base64Digit (b % 16 * 4), '=']
  | a :: b :: c :: rest =>
      base64Digit (a / 4) :: base64Digit (a % 4 * 16 + b / 16) ::
        base64Digit (b % 16 * 4 + c / 64) :: base64Digit (c % 64) :: base64Chunks rest

def base64Encode (bytes : List Nat) : String := ⟨base64Chunks bytes⟩

/-- A stored object as the R2 binding returns it: its byte size, the stored
content type (`httpMetadata?.contentType`), its bytes (`arrayBuffer()`) and
its text decoding (`text()`). -/
structure R2Object where
  size : Nat
  contentType : Option String := none
  bytes : List Nat := []
  text : String := ""
deriving DecidableEq, Repr

/-- The distinct result shapes returned by `getObjectUrl`. -/
inductive ObjectUrlResult where
  | failure (error : String)
  | imageUrl (url : String) (size : Nat) (contentType : String)
  | textContent (content : String) (size : Nat) (contentType : String)
deriving DecidableEq, Repr

/-- `getObjectUrl` (source lines 86–150).  The bucket lookup is the external
input `stored`. -/
def getObjectUrl (key : String) (stored : Option R2Object) : ObjectUrlResult :=
  match stored with
  | none => .failure "Object not found"
  | some obj =>
    if isImageKey key then
      if obj.size > 5 * 1024 * 1024 then
        .failure "Image too large for preview (>5MB)"
      else
        let mimeType := obj.contentType.getD "image/jpeg"
        .imageUrl ("data:" ++ mimeType ++ ";base64," ++ base64Encode obj.bytes)
          obj.size mimeType
    else
      .textContent obj.text obj.size (obj.contentType.getD "text/plain")

/-- C8: an image object above 5 MB is rejected with the distinct
"too large" failure (no URL); a non-image object yields its raw text content
instead of a URL; an image at or under the threshold yields a data URL
embedding the bytes with the stored content type. -/
theorem getObjectUrl_policy (key : String) (obj : R2Object) :
    (isImageKey key = true → 5 * 1024 * 1024 < obj.size →
       getObjectUrl key (some obj) = .failure "Image too large for preview (>5MB)")
    ∧ (isImageKey key = false →
       getObjectUrl key (some obj) =
         .textContent obj.text obj.size (obj.contentType.getD "text/plain"))
    ∧ (isImageKey key = true → obj.size ≤ 5 * 1024 * 1024 →
       getObjectUrl key (some obj) =
         .imageUrl ("data:" ++ obj.contentType.getD "image/jpeg" ++ ";base64," ++
             base64Encode obj.bytes)
           obj.size (obj.contentType.getD "image/jpeg")) := by
  refine ⟨?_, ?_, ?_⟩
  · intro him hbig
    simp [getObjectUrl, him, hbig]
  · intro him
    simp [getObjectUrl, him]
  · intro him hsmall
    simp [getObjectUrl, him, Nat.not_lt.mpr hsmall]

theorem getObjectUrl_policy_witness :
    getObjectUrl "big.png" (some ⟨6 * 1024 * 1024, some "image/png", [], ""⟩) =
      .failure "Image too large for preview (>5MB)"
    ∧ getObjectUrl "notes.txt" (some ⟨12, none, [], "hello"⟩) =
        .textContent "hello" 12 "text/plain"
    ∧ getObjectUrl "ok.PNG" (some ⟨3, some "image/png", [1, 2, 3], ""⟩) =
        .imageUrl ("data:" ++ "image/png" ++ ";base64," ++ base64Encode [1, 2, 3])
          3 "image/png" := by
  refine ⟨?_, ?_, ?_⟩
  · exact (getObjectUrl_policy "big.png" ⟨6 * 1024 * 1024, some "image/png", [], ""⟩).1
      (by decide) (by decide)
  · exact (getObjectUrl_policy "notes.txt" ⟨12, none, [], "hello"⟩).2.1 (by decide)
  · exact (getObjectUrl_policy "ok.PNG" ⟨3, some "image/png", [1, 2, 3], ""⟩).2.2
      (by decide) (by decide)

/-! ### C7: `batchUploadReferenceImages` (`ai-image-functions.ts`) -/

/-- One serialized file of a batch upload request. -/
structure UploadFileData where
  fileData : String
  fileName : String
  fileType : String
  fileSize : Nat
deriving DecidableEq, Repr

/-- Result record of `validateImageFile`. -/
structure FileUploadValidation where
  isValid : Bool
  error : Option String := none
deriving DecidableEq, Repr

/-- `AI_CONFIG.maxFileSize` (5MB in bytes). -/
def maxFileSize : Nat := 5 * 1024 * 1024

/-- `AI_CONFIG.supportedFormats`. -/
def supportedFormats : List String :=
  ["image/jpeg", "image/png", "image/webp", "image/gif"]

/-- Renders `size / (1024*1024)` with two decimal places, modelling
`(file.size / (1024*1024)).toFixed(2)` as exact decimal rounding (half up)
of the quotient. -/
def formatMB (size : Nat) : String :=
  let scaled := (size * 100 + (1024 * 1024) / 2) / (1024 * 1024)
  Nat.repr (scaled / 100) ++ "." ++
    (if scaled % 100 < 10 then "0" ++ Nat.repr (scaled % 100) else Nat.repr (scaled % 100))

/-- The size-specific rejection message of `validateImageFile`
(`maxSizeMB` renders as "5"). -/
def sizeErrorMessage (size : Nat) : String :=
  "File size (" ++ formatMB size ++ "MB) exceeds maximum allowed size of 5MB"

/-- The format rejection message of `validateImageFile`. -/
def formatErrorMessage (t : String) : String :=
  "Unsupported file format: " ++ t ++ ". Supported formats: " ++
    String.intercalate ", " supportedFormats

/-- `validateImageFile` (`ai-utils.ts` lines 178–201), applied to the file's
MIME type and byte size: size is checked first, then the format allow-list. -/
def validateImageFile (fileType : String) (fileSize : Nat) : FileUploadValidation :=
  if fileSize > maxFileSize then ⟨false, some (sizeErrorMessage fileSize)⟩
  else if fileType ∈ supportedFormats then ⟨true, none⟩
  else ⟨false, some (formatErrorMessage fileType)⟩

/-- Splits a character list at every `'.'` (models `String.split('.')`). -/
def splitDot : List Char → List (List Char)
  | [] => [[]]
  | c :: cs =>
    if c = '.' then [] :: splitDot cs
    else
      match splitDot cs with
      | [] => [[c]]
      | p :: ps => (c :: p) :: ps

/-- `fileName.split('.').pop() || 'jpg'`. -/
def fileExtension (fileName : String) : String :=
  let ext : List Char := (splitDot fileName.data).getLastD []
  if ext.isEmpty then "jpg" else ⟨ext⟩

/-- The collision-resistant storage key built for the file at `index`:
`${prefix}/${timestamp}-batch-${index}-${randomSuffix}.${fileExtension}`
with prefix `reference_image`. -/
def mkBatchKey (ts index : Nat) (suffix fileName : String) : String :=
  "reference_image" ++ "/" ++ Nat.repr ts ++ "-batch-" ++ Nat.repr index ++ "-" ++
    suffix ++ "." ++ fileExtension fileName

/-- Where one file of the batch ended up. -/
inductive UploadOutcome where
  | uploaded (image : StoredImage)
  | failed (fileName : String) (error : String)
deriving DecidableEq, Repr

/-- The body of the per-file async closure of `batchUploadReferenceImages`:
validate, build the key, upload (the store's success/failure is the external
input `putOk`/`putErr`), and produce either a `StoredImage` or a per-file
failure record. -/
def processBatchFile (img : UploadFileData) (index ts : Nat) (suffix : String)
    (putOk : Bool) (putErr : String) : UploadOutcome :=
  let v := validateImageFile img.fileType img.fileSize
  if v.isValid = false then
    .failed img.fileName (v.error.getD "Validation failed")
  else if putOk = false then
    .failed img.fileName ("Failed to upload to R2: " ++ putErr)
  else
    .uploaded
      { id := Nat.repr ts ++ "-batch-" ++ Nat.repr index ++ "-" ++ suffix
        url := "https://image-studio-data.r2.cloudflarestorage.com/" ++
          mkBatchKey ts index suffix img.fileName
        filename := img.fileName
        originalName := img.fileName
        format := img.fileType
        size := img.fileSize
        r2Key := mkBatchKey ts index suffix img.fileName
        imageKind := "reference" }

/-- `batchUploadReferenceImages`: one independent upload per file; the
per-file timestamps, random suffixes and store outcomes are external inputs
indexed by file position. -/
def batchUploadReferenceImages (images : List UploadFileData)
    (ts : Nat → Nat) (suffix : Nat → String)
    (putOk : Nat → Bool) (putErr : Nat → String) : List UploadOutcome :=
  images.mapIdx (fun i img => processBatchFile img i (ts i) (suffix i) (putOk i) (putErr i))

/-- The `uploadedImages` accumulator. -/
def uploadedImages (outs : List UploadOutcome) : List StoredImage :=
  outs.filterMap (fun o => match o with | .uploaded s => some s | .failed _ _ => none)

/-- The `failedUploads` accumulator (fileName, error pairs). -/
def failedUploads (outs : List UploadOutcome) : List (String × String) :=
  outs.filterMap (fun o => match o with | .uploaded _ => none | .failed n e => some (n, e))

/-! #### Storage keys of distinct batch indices are distinct -/

theorem digitChar_ne_dash (n : Nat) : Nat.digitChar n ≠ '-' := by
  rcases Nat.lt_or_ge n 16 with h | h
  · interval_cases n <;> decide
  · have hstar : Nat.digitChar n = '*' := by
      unfold Nat.digitChar
      iterate 16 rw [if_neg (by omega)]
    rw [hstar]
    decide

theorem toDigitsCore_ne_dash :
    ∀ (f n : Nat) (acc : List Char), (∀ c ∈ acc, c ≠ '-') →
      ∀ c ∈ Nat.toDigitsCore 10 f n acc, c ≠ '-' := by
  intro f
  induction f with
  | zero =>
    intro n acc hacc
    simpa [Nat.toDigitsCore] using hacc
  | succ f ih =>
    intro n acc hacc
    have hcons : ∀ c ∈ Nat.digitChar (n % 10) :: acc, c ≠ '-' := by
      intro c hc
      rcases List.mem_cons.mp hc with rfl | hc
      · exact digitChar_ne_dash _
      · exact hacc c hc
    simp only [Nat.toDigitsCore]
    by_cases h : n / 10 = 0
    · rw [if_pos h]
      exact hcons
    · rw [if_neg h]
      exact ih _ _ hcons

theorem repr_ne_dash (n : Nat) : ∀ c ∈ (Nat.repr n).data, c ≠ '-' := by
  intro c hc
  have : (Nat.repr n).data = Nat.toDigitsCore 10 (n + 1) n [] := rfl
  rw [this] at hc
  exact toDigitsCore_ne_dash (n + 1) n [] (by intro x hx; cases hx) c hc

theorem takeWhile_append_dash {A : List Char} (rest : List Char)
    (h : ∀ c ∈ A, c ≠ '-') :
    (A ++ '-' :: rest).takeWhile (fun c => c != '-') = A := by
  induction A with
  | nil => simp [List.takeWhile]
  | cons a A ih =>
    have ha : (a != '-') = true := by
      simpa using h a (List.mem_cons_self a A)
    have ht := ih (fun c hc => h c (List.mem_cons_of_mem a hc))
    simp [List.takeWhile_cons, ha, ht]

theorem dropWhile_append_dash {A : List Char} (rest : List Char)
    (h : ∀ c ∈ A, c ≠ '-') :
    (A ++ '-' :: rest).dropWhile (fun c => c != '-') = '-' :: rest := by
  induction A with
  | nil => simp [List.dropWhile]
  | cons a A ih =>
    have ha : (a != '-') = true := by
      simpa using h a (List.mem_cons_self a A)
    have ht := ih (fun c hc => h c (List.mem_cons_of_mem a hc))
    simp [List.dropWhile_cons, ha, ht]

/-- Recovers the `${index}` segment of a batch storage key. -/
def keyIndexChars (key : String) : List Char :=
  ((key.data.dropWhile (fun c => c != '-')).drop 7).takeWhile (fun c => c != '-')

theorem keyIndexChars_mkBatchKey (ts index : Nat) (suffix fileName : String) :
    keyIndexChars (mkBatchKey ts index suffix fileName) = (Nat.repr index).data := by
  have hdata : (mkBatchKey ts index suffix fileName).data =
      ("reference_image/".data ++ (Nat.repr ts).data) ++
        '-' :: ('b' :: 'a' :: 't' :: 'c' :: 'h' :: '-' ::
          ((Nat.repr index).data ++
            '-' :: (suffix.data ++ '.' :: (fileExtension fileName).data))) := by
    show ("reference_image".data ++ "/".data ++ (Nat.repr ts).data ++ "-batch-".data ++
        (Nat.repr index).data ++ "-".data ++ suffix.data ++ ".".data ++
        (fileExtension fileName).data) = _
    simp [List.append_assoc]
  unfold keyIndexChars
  rw [hdata]
  have hlit : ∀ c ∈ ("reference_image/" : String).data, c ≠ '-' := by decide
  have hA : ∀ c ∈ "reference_image/".data ++ (Nat.repr ts).data, c ≠ '-' := by
    intro c hc
    rcases List.mem_append.mp hc with hc | hc
    · exact hlit c hc
    · exact repr_ne_dash ts c hc
  rw [dropWhile_append_dash _ hA]
  show ((Nat.repr index).data ++
      '-' :: (suffix.data ++ '.' :: (fileExtension fileName).data)).takeWhile
      (fun c => c != '-') = _
  exact takeWhile_append_dash _ (repr_ne_dash index)

theorem repr_inj_lt5 : ∀ a, a < 5 → ∀ b, b < 5 → Nat.repr a = Nat.repr b → a = b := by
  decide

theorem mkBatchKey_inj (ts₁ ts₂ i j : Nat) (s₁ s₂ n₁ n₂ : String)
    (hi : i < 5) (hj : j < 5) (hne : i ≠ j) :
    mkBatchKey ts₁ i s₁ n₁ ≠ mkBatchKey ts₂ j s₂ n₂ := by
  intro h
  have hidx := congrArg keyIndexChars h
  rw [keyIndexChars_mkBatchKey, keyIndexChars_mkBatchKey] at hidx
  exact hne (repr_inj_lt5 i hi j hj (String.ext hidx))

theorem getElem?_mapIdx {α β : Type} (l : List α) (f : Nat → α → β) (i : Nat) :
    (l.mapIdx f)[i]? = (l[i]?).map (f i) := by
  rw [List.mapIdx_eq_enum_map, List.getElem?_map, List.getElem?_enum]
  cases l[i]? <;> rfl

theorem uploaded_failed_partition (outs : List UploadOutcome) :
    (uploadedImages outs).length + (failedUploads outs).length = outs.length := by
  induction outs with
  | nil => rfl
  | cons o outs ih =>
    cases o with
    | uploaded s =>
      simp only [uploadedImages, failedUploads, List.filterMap_cons] at ih ⊢
      simp only [List.length_cons]
      omega
    | failed n e =>
      simp only [uploadedImages, failedUploads, List.filterMap_cons] at ih ⊢
      simp only [List.length_cons]
      omega

theorem processBatchFile_invalid (img : UploadFileData) (index tsv : Nat) (sfx : String)
    (pOk : Bool) (pErr : String) (msg : String)
    (hval : validateImageFile img.fileType img.fileSize = ⟨false, some msg⟩) :
    processBatchFile img index tsv sfx pOk pErr = .failed img.fileName msg := by
  simp only [processBatchFile]
  rw [hval]
  rfl

/-- C7: for a batch of at most 5 files, each file independently yields
exactly one outcome — an uploaded `StoredImage` with its own storage key
under `reference_image/`, or a per-file failure (with the size-specific
message when the file is oversized); the outcome at each index is a function
of that file and its own external inputs alone, uploaded and failed outcomes
partition the batch, and the storage keys of any two uploaded files are
distinct. -/
theorem batchUpload_spec (images : List UploadFileData)
    (ts : Nat → Nat) (suffix : Nat → String) (putOk : Nat → Bool) (putErr : Nat → String)
    (h5 : images.length ≤ 5) :
    (batchUploadReferenceImages images ts suffix putOk putErr).length = images.length
    ∧ (∀ i img, images[i]? = some img →
        (batchUploadReferenceImages images ts suffix putOk putErr)[i]? =
          some (processBatchFile img i (ts i) (suffix i) (putOk i) (putErr i)))
    ∧ (uploadedImages (batchUploadReferenceImages images ts suffix putOk putErr)).length
        + (failedUploads (batchUploadReferenceImages images ts suffix putOk putErr)).length
        = images.length
    ∧ (∀ (i : Nat) (img : UploadFileData), images[i]? = some img →
        maxFileSize < img.fileSize →
        (batchUploadReferenceImages images ts suffix putOk putErr)[i]? =
          some (UploadOutcome.failed img.fileName (sizeErrorMessage img.fileSize)))
    ∧ (∀ (i j : Nat) (si sj : StoredImage),
        (batchUploadReferenceImages images ts suffix putOk putErr)[i]? =
          some (UploadOutcome.uploaded si) →
        (batchUploadReferenceImages images ts suffix putOk putErr)[j]? =
          some (UploadOutcome.uploaded sj) →
        i ≠ j → si.r2Key ≠ sj.r2Key)
    ∧ (∀ (i : Nat) (si : StoredImage),
        (batchUploadReferenceImages images ts suffix putOk putErr)[i]? =
          some (UploadOutcome.uploaded si) →
        ∃ name : String, si.r2Key = mkBatchKey (ts i) i (suffix i) name) := by
  have hlen : (batchUploadReferenceImages images ts suffix putOk putErr).length
      = images.length := by
    simp [batchUploadReferenceImages]
  have hget : ∀ i img, images[i]? = some img →
      (batchUploadReferenceImages images ts suffix putOk putErr)[i]? =
        some (processBatchFile img i (ts i) (suffix i) (putOk i) (putErr i)) := by
    intro i img hi
    rw [batchUploadReferenceImages, getElem?_mapIdx, hi]
    rfl
  have hkey : ∀ i si,
      (batchUploadReferenceImages images ts suffix putOk putErr)[i]? =
        some (.uploaded si) →
      i < 5 ∧ ∃ name : String, si.r2Key = mkBatchKey (ts i) i (suffix i) name := by
    intro i si hi
    have hlt : i < images.length := by
      rcases List.getElem?_eq_some.mp hi with ⟨h, -⟩
      rwa [hlen] at h
    refine ⟨lt_of_lt_of_le hlt h5, ?_⟩
    have himg : images[i]? = some images[i] := List.getElem?_eq_getElem hlt
    rw [hget i images[i] himg] at hi
    have hproc : processBatchFile images[i] i (ts i) (suffix i) (putOk i) (putErr i) =
        .uploaded si := by
      injection hi
    simp only [processBatchFile] at hproc
    by_cases hv : (validateImageFile images[i].fileType images[i].fileSize).isValid = false
    · rw [if_pos hv] at hproc
      cases hproc
    · rw [if_neg hv] at hproc
      by_cases hp : putOk i = false
      · rw [if_pos hp] at hproc
        cases hproc
      · rw [if_neg hp] at hproc
        injection hproc with hrec
        exact ⟨images[i].fileName, by rw [← hrec]⟩
  refine ⟨hlen, hget, ?_, ?_, ?_, fun i si hi => (hkey i si hi).2⟩
  · rw [uploaded_failed_partition, hlen]
  · intro i img hi hbig
    rw [hget i img hi]
    have hval : validateImageFile img.fileType img.fileSize =
        ⟨false, some (sizeErrorMessage img.fileSize)⟩ := by
      unfold validateImageFile
      rw [if_pos hbig]
    rw [processBatchFile_invalid img i (ts i) (suffix i) (putOk i) (putErr i)
      (sizeErrorMessage img.fileSize) hval]
  · intro i j si sj hi hj hne
    obtain ⟨hi5, ni, hki⟩ := hkey i si hi
    obtain ⟨hj5, nj, hkj⟩ := hkey j sj hj
    rw [hki, hkj]
    exact mkBatchKey_inj (ts i) (ts j) i j (suffix i) (suffix j) ni nj hi5 hj5 hne


def oversizedFile : UploadFileData :=
  { fileData := "d", fileName := "big.png", fileType := "image/png",
    fileSize := 6 * 1024 * 1024 }

def smallFile : UploadFileData :=
  { fileData := "d", fileName := "ok.png", fileType := "image/png", fileSize := 10 }

theorem batchUpload_spec_witness :
    (batchUploadReferenceImages [smallFile, oversizedFile]
        (fun _ => 100) (fun _ => "abc123") (fun _ => true) (fun _ => ""))[1]? =
      some (.failed "big.png" (sizeErrorMessage (6 * 1024 * 1024)))
    ∧ (uploadedImages (batchUploadReferenceImages [smallFile, oversizedFile]
        (fun _ => 100) (fun _ => "abc123") (fun _ => true) (fun _ => ""))).length
      + (failedUploads (batchUploadReferenceImages [smallFile, oversizedFile]
        (fun _ => 100) (fun _ => "abc123") (fun _ => true) (fun _ => ""))).length = 2 := by
  have h := batchUpload_spec [smallFile, oversizedFile]
    (fun _ => 100) (fun _ => "abc123") (fun _ => true) (fun _ => "") (by decide)
  exact ⟨h.2.2.2.1 1 oversizedFile rfl (by decide), h.2.2.1⟩

end ImageStudio
